import Mathlib

/-!
Verification of the data-capture core: local store (IndexedDB `db` object),
row serializer (`googleService.ts`) and sync orchestration (`App.tsx`),
shallowly embedded in Lean.

JS dynamic values that can occur in an entry's `data` map are modelled by the
inductive `Value`; JS numbers are modelled as integers (no claim here depends
on fractional values). Absent keys (JS `undefined`) are modelled through
`Option` on lookup; explicit `null` (written by the image Clear button) is the
constructor `Value.vNull`.
-/

namespace DataCapture

/-- Dynamic JS value stored in an entry's `data` record. -/
inductive Value where
  | vNull : Value
  | vStr (s : String) : Value
  | vNum (n : Int) : Value
  | vBool (b : Bool) : Value
  | vLoc (latitude longitude : Int) : Value
  | vPoly (pts : List (Int × Int)) : Value
deriving DecidableEq, Repr

/-- JS truthiness of a value: `null`, `0`, `""` and `false` are falsy;
objects and arrays (locations, polygons) are always truthy. -/
def Value.truthy : Value → Bool
  | .vNull => false
  | .vStr s => !s.isEmpty
  | .vNum n => n != 0
  | .vBool b => b
  | .vLoc _ _ => true
  | .vPoly _ => true

/-- JS `String(val)` conversion. Objects stringify to `[object Object]`;
arrays join their elements with commas. -/
def Value.jsString : Value → String
  | .vNull => "null"
  | .vStr s => s
  | .vNum n => toString n
  | .vBool b => if b then "true" else "false"
  | .vLoc _ _ => "[object Object]"
  | .vPoly pts => String.intercalate "," (pts.map (fun _ => "[object Object]"))

/-- JS property read `v.latitude` as used in the serializer's location branch:
defined on location objects, `undefined` (stringified) otherwise. -/
def Value.jsLatStr : Value → String
  | .vLoc la _ => toString la
  | _ => "undefined"

/-- JS property read `v.longitude`, as `Value.jsLatStr`. -/
def Value.jsLngStr : Value → String
  | .vLoc _ lo => toString lo
  | _ => "undefined"

/-- Field types of `types.ts`. -/
inductive FieldType where
  | text | number | datetime | location | polygon | image | boolean
deriving DecidableEq, Repr

/-- `FieldDefinition` of `types.ts`. -/
structure FieldDefinition where
  id : String
  name : String
  type : FieldType
  required : Bool
deriving DecidableEq, Repr

/-- `Campaign` of `types.ts`. -/
structure Campaign where
  id : String
  name : String
  description : String
  fields : List FieldDefinition
  spreadsheetId : Option String
  createdAt : Nat
deriving DecidableEq, Repr

/-- `Entry` of `types.ts`; `data` is the JS object `Record<string, any>`
modelled as an association list with unique keys maintained by writers. -/
structure Entry where
  id : String
  campaignId : String
  data : List (String × Value)
  synced : Bool
  createdAt : Nat
  updatedAt : Nat
deriving DecidableEq, Repr

/-- JS object property lookup `data[k]`: `none` models `undefined`. -/
def dataLookup (d : List (String × Value)) (k : String) : Option Value :=
  match d.find? (fun p => p.fst == k) with
  | some p => some p.snd
  | none => none

/-- JS truthiness of a possibly-absent property: `undefined` is falsy. -/
def jsTruthyOpt (o : Option Value) : Bool :=
  match o with
  | some v => v.truthy
  | none => false

/-- JS `x || ''` applied to a possibly-absent property: a truthy value passes
through, anything falsy (or absent) becomes the empty string. -/
def jsOrEmpty (o : Option Value) : Value :=
  match o with
  | some v => if v.truthy then v else .vStr ""
  | none => .vStr ""

/-! The row serializer, from `src/services/googleService.ts`. -/

/-- `getHeaders` of `googleService.ts`: five fixed columns, then one column
per field using its display name, in campaign field order. -/
def getHeaders (fields : List FieldDefinition) : List String :=
  ["ID", "Created At", "Latitude", "Longitude", "Accuracy"] ++ fields.map (fun f => f.name)

/-- Placeholder the serializer substitutes for an oversized image payload. -/
def imagePlaceholder : String := "(Image too large for Sheet Cell)"

/-- One trailing cell of a serialized row, from the `campaign.fields.map`
body inside `syncEntries`: absent or `null` values give an empty cell, image
strings longer than 40000 characters give the placeholder, locations give
`"lat,lng"`, everything else is JS-stringified. -/
def fieldCell (e : Entry) (f : FieldDefinition) : Value :=
  match dataLookup e.data f.id with
  | none => .vStr ""
  | some v =>
    match v with
    | .vNull => .vStr ""
    | _ =>
      match f.type with
      | .image =>
        match v with
        | .vStr s => if s.length > 40000 then .vStr imagePlaceholder else .vStr s
        | _ => v
      | .location => .vStr (v.jsLatStr ++ "," ++ v.jsLngStr)
      | _ => .vStr v.jsString

/-- The five leading cells (`baseData` inside `syncEntries`): id, ISO string
of `createdAt`, then the three reserved `__loc_*` keys each passed through
JS `|| ''`. The ISO rendering of an epoch timestamp is abstracted as the
function argument `iso`. -/
def baseData (iso : Nat → String) (e : Entry) : List Value :=
  [ .vStr e.id,
    .vStr (iso e.createdAt),
    jsOrEmpty (dataLookup e.data "__loc_lat"),
    jsOrEmpty (dataLookup e.data "__loc_lng"),
    jsOrEmpty (dataLookup e.data "__loc_acc") ]

/-- One serialized row (`[...baseData, ...fieldData]` inside `syncEntries`). -/
def rowOf (iso : Nat → String) (campaign : Campaign) (e : Entry) : List Value :=
  baseData iso e ++ campaign.fields.map (fieldCell e)

/-- `syncEntries` of `googleService.ts`, observed through its remote effect:
`none` means it returned early and never called `appendRows`; `some rows`
means one `appendRows` call carrying exactly `rows`. -/
def syncEntriesRows (iso : Nat → String) (campaign : Campaign) (entries : List Entry) :
    Option (List (List Value)) :=
  if entries.length == 0 then none
  else some (entries.map (rowOf iso campaign))

/-! The remote sheet's header state and `ensureSheetStructure`. -/

/-- Remote sink state relevant to `ensureSheetStructure`: the first row as
returned by reading range `A1:Z1` (`none` models an absent/blank row, for
which the API returns no values). -/
structure Sheet where
  firstRow : Option (List String)
deriving DecidableEq, Repr

/-- `ensureSheetStructure` of `googleService.ts`: reads the first row and
writes the computed headers only when no row came back or it has length 0;
an existing non-empty first row is left untouched. -/
def ensureSheetStructure (sheet : Sheet) (campaign : Campaign) : Sheet :=
  match sheet.firstRow with
  | none => { firstRow := some (getHeaders campaign.fields) }
  | some hs =>
    if hs.length == 0 then { firstRow := some (getHeaders campaign.fields) }
    else sheet

/-! The local store, from the IndexedDB `db` object. -/

/-- The two IndexedDB object stores, `campaigns` and `entries`, both keyed by
`id` (keyPath). -/
structure Store where
  campaigns : List Campaign
  entries : List Entry
deriving DecidableEq, Repr

/-- Key uniqueness that IndexedDB enforces through `keyPath: id`. -/
def uniqueIds (es : List Entry) : Prop :=
  es.Pairwise (fun a b => a.id ≠ b.id)

instance (es : List Entry) : Decidable (uniqueIds es) :=
  List.instDecidablePairwise es

/-- IndexedDB `store.put` on the entries store: insert-or-replace by key. -/
def putEntryList (es : List Entry) (e : Entry) : List Entry :=
  if es.any (fun x => x.id == e.id) then
    es.map (fun x => if x.id == e.id then e else x)
  else es ++ [e]

/-- `db.saveEntry`: a single `put` in its own transaction. -/
def saveEntry (s : Store) (e : Entry) : Store :=
  { s with entries := putEntryList s.entries e }

/-- `db.getCampaign`: key lookup, `undefined` (here `none`) when missing. -/
def getCampaign (s : Store) (id : String) : Option Campaign :=
  s.campaigns.find? (fun c => c.id == id)

/-- `db.getEntries`: all entries whose `campaignId` index key matches, sorted
by `createdAt` descending (the JS comparator `b.createdAt - a.createdAt`). -/
def getEntries (s : Store) (campaignId : String) : List Entry :=
  ((s.entries.filter (fun e => e.campaignId == campaignId)).mergeSort
    (fun a b => decide (b.createdAt ≤ a.createdAt)))

/-- IndexedDB `delete` by primary key on the entries store. -/
def deleteEntryKey (es : List Entry) (k : String) : List Entry :=
  es.filter (fun e => e.id != k)

/-- Keys the `campaignId` index returns for `id`
(`index.getAllKeys(id)` inside `db.deleteCampaign`). -/
def cascadeKeys (s : Store) (id : String) : List String :=
  (s.entries.filter (fun e => e.campaignId == id)).map (fun e => e.id)

/-- Committed effect of `db.deleteCampaign`'s transaction: delete the
campaign key, then collect the keys the `campaignId` index yields for `id`
and delete each of them, exactly as the transaction body does. -/
def deleteCampaignCommit (s : Store) (id : String) : Store :=
  { campaigns := s.campaigns.filter (fun c => c.id != id),
    entries := (cascadeKeys s id).foldl deleteEntryKey s.entries }

/-- `db.deleteCampaign` as one IndexedDB readwrite transaction over both
object stores. `fault = none` is the `oncomplete` path: every sub-delete
commits together. `fault = some k` models sub-step `k` failing before
commit; IndexedDB then aborts the transaction and rolls back all of its
writes, so the state any subsequent reader observes is the pre-state. The
returned store is the only state visible to readers, since a readwrite
transaction's writes are invisible outside it until commit. -/
def deleteCampaignTx (s : Store) (id : String) (fault : Option Nat) : Store :=
  match fault with
  | none => deleteCampaignCommit s id
  | some _ => s

/-- Committed effect of `db.markSynced`: fold over the requested ids; for
each id, `get` it and, when present, `put` it back with `synced = true`;
missing ids resolve without a write. -/
def markSynced (es : List Entry) (ids : List String) : List Entry :=
  ids.foldl
    (fun acc id =>
      match acc.find? (fun e => e.id == id) with
      | some e => putEntryList acc { e with synced := true }
      | none => acc)
    es

/-- `db.markSynced` as one IndexedDB readwrite transaction on the entries
store: `fault = none` is the `oncomplete` path committing the whole batch;
`fault = some k` models a mid-batch failure, which aborts the transaction
and rolls every write back, leaving the pre-state as the only state any
subsequent reader observes. -/
def markSyncedTx (s : Store) (ids : List String) (fault : Option Nat) : Store :=
  match fault with
  | none => { s with entries := markSynced s.entries ids }
  | some _ => s

/-! Sync orchestration and entry saving, from `src/App.tsx`. -/

/-- Remote and store calls the append phase of `handleSync` makes:
`appended = some rows` is the single `appendRows` batch, `marked = some ids`
the single `markSynced` call; `none` means the call never happened. -/
structure SyncEffect where
  appended : Option (List (List Value))
  marked : Option (List String)
deriving DecidableEq, Repr

/-- Append phase of `handleSync`: filter the loaded entries to the unsynced
ones; only when that subset is non-empty, call `syncEntries` with the whole
subset and then `markSynced` with exactly its ids. -/
def handleSyncAppendPhase (iso : Nat → String) (campaign : Campaign)
    (entries : List Entry) : SyncEffect :=
  let unsynced := entries.filter (fun e => !e.synced)
  if unsynced.length > 0 then
    { appended := syncEntriesRows iso campaign unsynced,
      marked := some (unsynced.map (fun e => e.id)) }
  else { appended := none, marked := none }

/-- `handleSaveEntry` of `App.tsx`: required fields are validated by JS
truthiness; on success the entry written is built with `synced: false`
unconditionally, reusing `editingEntryId` (and the matching entry's
`createdAt`) when editing, or the fresh uuid when creating. Returns the
entry passed to `db.saveEntry`, or `none` when validation rejects. -/
def handleSaveEntry (campaign : Campaign) (entries : List Entry)
    (formData : List (String × Value)) (editingEntryId : Option String)
    (freshId : String) (now : Nat) : Option Entry :=
  if campaign.fields.all (fun f =>
      !f.required || jsTruthyOpt (dataLookup formData f.id)) then
    some
      { id := editingEntryId.getD freshId,
        campaignId := campaign.id,
        data := formData,
        synced := false,
        createdAt :=
          match editingEntryId with
          | some eid =>
            (((entries.find? (fun e => e.id == eid)).map (fun e => e.createdAt)).getD now)
          | none => now,
        updatedAt := now }
  else none

/-! Helper lemmas about `markSynced`. -/

/-- Effect of one `markSynced` iteration on the single entry with the given
key. -/
def setSynced1 (id : String) (e : Entry) : Entry :=
  if e.id = id then { e with synced := true } else e

/-- Pointwise effect of a whole `markSynced` batch. -/
def setSyncedIf (ids : List String) (e : Entry) : Entry :=
  if e.id ∈ ids then { e with synced := true } else e

theorem setSynced1_id (id : String) (e : Entry) : (setSynced1 id e).id = e.id := by
  unfold setSynced1
  split <;> rfl

theorem setSyncedIf_id (ids : List String) (e : Entry) :
    (setSyncedIf ids e).id = e.id := by
  unfold setSyncedIf
  split <;> rfl

theorem uniqueIds_eq_of_mem {es : List Entry} (h : uniqueIds es) {a b : Entry}
    (ha : a ∈ es) (hb : b ∈ es) (hid : a.id = b.id) : a = b := by
  induction es with
  | nil => cases ha
  | cons x t ih =>
    rcases List.pairwise_cons.mp h with ⟨hx, ht⟩
    rcases List.mem_cons.mp ha with ha1 | ha2 <;> rcases List.mem_cons.mp hb with hb1 | hb2
    · rw [ha1, hb1]
    · exact absurd (ha1 ▸ hid) (hx b hb2)
    · exact absurd (hb1 ▸ hid).symm (hx a ha2)
    · exact ih ht ha2 hb2

theorem uniqueIds_map_setSynced1 {es : List Entry} (id : String) (h : uniqueIds es) :
    uniqueIds (es.map (setSynced1 id)) := by
  unfold uniqueIds at h ⊢
  refine List.Pairwise.map _ ?_ h
  intro a b hab
  rw [setSynced1_id, setSynced1_id]
  exact hab

theorem uniqueIds_map_setSyncedIf {es : List Entry} (ids : List String)
    (h : uniqueIds es) : uniqueIds (es.map (setSyncedIf ids)) := by
  unfold uniqueIds at h ⊢
  refine List.Pairwise.map _ ?_ h
  intro a b hab
  rw [setSyncedIf_id, setSyncedIf_id]
  exact hab

theorem markSynced_step_eq_map (es : List Entry) (id : String) (h : uniqueIds es) :
    (match es.find? (fun e => e.id == id) with
     | some e => putEntryList es { e with synced := true }
     | none => es) = es.map (setSynced1 id) := by
  cases hf : es.find? (fun e => e.id == id) with
  | none =>
    have hnone : ∀ x ∈ es, x.id ≠ id := by
      intro x hx
      have := List.find?_eq_none.mp hf x hx
      simpa using this
    simp only []
    symm
    have : es.map (setSynced1 id) = es.map (fun e => e) :=
      List.map_congr_left (fun x hx => by simp [setSynced1, hnone x hx])
    simpa using this
  | some e =>
    have he_mem : e ∈ es := List.mem_of_find?_eq_some hf
    have he_id : e.id = id := by
      have := List.find?_some hf
      simpa using this
    have hany : es.any (fun x => x.id == ({ e with synced := true } : Entry).id) = true :=
      List.any_eq_true.mpr ⟨e, he_mem, by simp⟩
    simp only [putEntryList, hany, if_pos]
    apply List.map_congr_left
    intro x hx
    by_cases hxe : x.id = e.id
    · have hx_eq : x = e := uniqueIds_eq_of_mem h hx he_mem hxe
      subst hx_eq
      simp [setSynced1, he_id]
    · have : x.id ≠ id := fun hcon => hxe (hcon.trans he_id.symm)
      simp [setSynced1, hxe, this]

theorem markSynced_eq_map (es : List Entry) (ids : List String) (h : uniqueIds es) :
    markSynced es ids = es.map (setSyncedIf ids) := by
  induction ids generalizing es with
  | nil =>
    have : es.map (setSyncedIf []) = es.map (fun e => e) :=
      List.map_congr_left (fun x _ => by simp [setSyncedIf])
    simpa [markSynced] using this.symm
  | cons id ids ih =>
    have hstep : markSynced es (id :: ids) = markSynced (es.map (setSynced1 id)) ids := by
      show (List.foldl _ es (id :: ids)) = _
      rw [List.foldl_cons]
      congr 1
      exact markSynced_step_eq_map es id h
    rw [hstep, ih _ (uniqueIds_map_setSynced1 id h), List.map_map]
    apply List.map_congr_left
    intro e _
    show setSyncedIf ids (setSynced1 id e) = setSyncedIf (id :: ids) e
    by_cases h1 : e.id = id
    · by_cases h2 : e.id ∈ ids <;>
        simp [setSynced1, setSyncedIf, h1, h2, List.mem_cons]
    · by_cases h2 : e.id ∈ ids <;>
        simp [setSynced1, setSyncedIf, h1, h2, List.mem_cons]

theorem setSyncedIf_idem (ids : List String) (e : Entry) :
    setSyncedIf ids (setSyncedIf ids e) = setSyncedIf ids e := by
  unfold setSyncedIf
  by_cases h : e.id ∈ ids <;> simp [h]

theorem markSynced_synced_of_mem {es : List Entry} {ids : List String}
    (h : uniqueIds es) {e2 : Entry} (he2 : e2 ∈ markSynced es ids)
    (hid : e2.id ∈ ids) : e2.synced = true := by
  rw [markSynced_eq_map es ids h] at he2
  rcases List.mem_map.mp he2 with ⟨e, _, rfl⟩
  rw [setSyncedIf_id] at hid
  simp [setSyncedIf, hid]

/-! Helper lemmas about the cascade delete. -/

theorem mem_foldl_deleteEntryKey (keys : List String) (es : List Entry) (e : Entry)
    (h : e ∈ keys.foldl deleteEntryKey es) : e ∈ es ∧ e.id ∉ keys := by
  induction keys generalizing es with
  | nil => exact ⟨h, by simp⟩
  | cons k ks ih =>
    rw [List.foldl_cons] at h
    obtain ⟨h1, h2⟩ := ih _ h
    unfold deleteEntryKey at h1
    rw [List.mem_filter] at h1
    obtain ⟨hmem, hne⟩ := h1
    have hne2 : e.id ≠ k := by simpa using hne
    refine ⟨hmem, ?_⟩
    rw [List.mem_cons]
    rintro (hcon | hcon)
    · exact hne2 hcon
    · exact h2 hcon

theorem deleteCampaignCommit_no_entries (s : Store) (id : String) :
    (deleteCampaignCommit s id).entries.filter (fun e => e.campaignId == id) = [] := by
  rw [List.filter_eq_nil_iff]
  intro e he hc
  have hcid : e.campaignId = id := by simpa using hc
  obtain ⟨hmem, hkeys⟩ :=
    mem_foldl_deleteEntryKey (cascadeKeys s id) s.entries e he
  apply hkeys
  unfold cascadeKeys
  exact List.mem_map.mpr ⟨e, List.mem_filter.mpr ⟨hmem, by simp [hcid]⟩, rfl⟩

theorem deleteCampaignCommit_no_campaign (s : Store) (id : String) :
    getCampaign (deleteCampaignCommit s id) id = none := by
  unfold getCampaign deleteCampaignCommit
  rw [List.find?_eq_none]
  intro c hc
  rw [List.mem_filter] at hc
  simpa using hc.2

/-- C1: `deleteCampaign` removes the campaign record and every entry of the
campaign all-or-nothing: a subsequent reader sees either the untouched
pre-state (any sub-step fault aborts and rolls back the transaction) or the
fully cascaded state in which neither the campaign nor any of its entries
exists; no intermediate state is observable. -/
theorem deleteCampaign_atomic_cascade (s : Store) (id : String) (fault : Option Nat) :
    (deleteCampaignTx s id fault = s ∨
       deleteCampaignTx s id fault = deleteCampaignCommit s id)
    ∧ (fault = none →
        getCampaign (deleteCampaignTx s id fault) id = none ∧
        getEntries (deleteCampaignTx s id fault) id = [])
    ∧ (fault ≠ none →
        deleteCampaignTx s id fault = s ∧
        getCampaign (deleteCampaignTx s id fault) id = getCampaign s id ∧
        getEntries (deleteCampaignTx s id fault) id = getEntries s id) := by
  cases fault with
  | none =>
    refine ⟨Or.inr rfl, fun _ => ⟨deleteCampaignCommit_no_campaign s id, ?_⟩, fun h => absurd rfl h⟩
    show getEntries (deleteCampaignCommit s id) id = []
    unfold getEntries
    rw [deleteCampaignCommit_no_entries s id, List.mergeSort_nil]
  | some k =>
    refine ⟨Or.inl rfl, ?_, fun _ => ⟨rfl, rfl, rfl⟩⟩
    intro h
    exact absurd h (by simp)

/-- Concrete instantiation of `deleteCampaign_atomic_cascade`: one campaign
with one entry, committed delete shows neither; a faulted delete leaves both. -/
theorem deleteCampaign_atomic_cascade_witness :
    getCampaign
      (deleteCampaignTx
        { campaigns := [{ id := "c1", name := "Camp", description := "",
                          fields := [], spreadsheetId := none, createdAt := 0 }],
          entries := [{ id := "e1", campaignId := "c1", data := [],
                        synced := false, createdAt := 1, updatedAt := 1 }] }
        "c1" none) "c1" = none
    ∧ getEntries
      (deleteCampaignTx
        { campaigns := [{ id := "c1", name := "Camp", description := "",
                          fields := [], spreadsheetId := none, createdAt := 0 }],
          entries := [{ id := "e1", campaignId := "c1", data := [],
                        synced := false, createdAt := 1, updatedAt := 1 }] }
        "c1" none) "c1" = []
    ∧ deleteCampaignTx
        { campaigns := [{ id := "c1", name := "Camp", description := "",
                          fields := [], spreadsheetId := none, createdAt := 0 }],
          entries := [{ id := "e1", campaignId := "c1", data := [],
                        synced := false, createdAt := 1, updatedAt := 1 }] }
        "c1" (some 0) =
      { campaigns := [{ id := "c1", name := "Camp", description := "",
                        fields := [], spreadsheetId := none, createdAt := 0 }],
        entries := [{ id := "e1", campaignId := "c1", data := [],
                      synced := false, createdAt := 1, updatedAt := 1 }] } := by
  refine ⟨?_, ?_, ?_⟩
  · exact (deleteCampaign_atomic_cascade _ "c1" none).2.1 rfl |>.1
  · exact (deleteCampaign_atomic_cascade _ "c1" none).2.1 rfl |>.2
  · exact ((deleteCampaign_atomic_cascade _ "c1" (some 0)).2.2 (by simp)).1

/-- Test fixture: a campaign with one text field, mirroring the spec's
end-to-end scenario. -/
def campaignNote : Campaign :=
  { id := "c1", name := "Camp", description := "",
    fields := [{ id := "f1", name := "Note", type := FieldType.text, required := false }],
    spreadsheetId := none, createdAt := 0 }

/-- C2: a sync run appends to the sink, in one `appendRows` batch, exactly
the rows of the entries unsynced at the start of the run, then calls
`markSynced` with exactly the ids of the appended entries; every appended
row stems from an entry whose `synced` flag was `false`, and when the
unsynced subset is empty neither call happens. -/
theorem handleSync_appends_exactly_unsynced (iso : Nat → String) (campaign : Campaign)
    (entries : List Entry) :
    (entries.filter (fun e => !e.synced) = [] →
       handleSyncAppendPhase iso campaign entries = { appended := none, marked := none })
    ∧ (entries.filter (fun e => !e.synced) ≠ [] →
       handleSyncAppendPhase iso campaign entries =
         { appended := some ((entries.filter (fun e => !e.synced)).map (rowOf iso campaign)),
           marked := some ((entries.filter (fun e => !e.synced)).map (fun e => e.id)) })
    ∧ (∀ rows, (handleSyncAppendPhase iso campaign entries).appended = some rows →
         ∀ r ∈ rows, ∃ e, e ∈ entries ∧ e.synced = false ∧ r = rowOf iso campaign e) := by
  by_cases hu : entries.filter (fun e => !e.synced) = []
  · refine ⟨fun _ => ?_, fun hne => absurd hu hne, ?_⟩
    · unfold handleSyncAppendPhase
      rw [hu]
      rfl
    · intro rows hrows
      unfold handleSyncAppendPhase at hrows
      rw [hu] at hrows
      simp at hrows
  · have hlen : (entries.filter (fun e => !e.synced)).length > 0 :=
      List.length_pos.mpr hu
    have heq : handleSyncAppendPhase iso campaign entries =
        { appended := some ((entries.filter (fun e => !e.synced)).map (rowOf iso campaign)),
          marked := some ((entries.filter (fun e => !e.synced)).map (fun e => e.id)) } := by
      unfold handleSyncAppendPhase syncEntriesRows
      rw [if_pos (by simpa using hlen), if_neg (by simpa using Nat.pos_iff_ne_zero.mp hlen)]
    refine ⟨fun hcon => absurd hcon hu, fun _ => heq, ?_⟩
    intro rows hrows
    rw [heq] at hrows
    simp only [Option.some.injEq] at hrows
    subst hrows
    intro r hr
    rcases List.mem_map.mp hr with ⟨e, he, rfl⟩
    rcases List.mem_filter.mp he with ⟨hmem, hsync⟩
    exact ⟨e, hmem, by simpa using hsync, rfl⟩

/-- Test fixtures: one unsynced and one synced entry of `campaignNote`. -/
def entryHello : Entry :=
  { id := "e1", campaignId := "c1", data := [("f1", Value.vStr "hello")],
    synced := false, createdAt := 1, updatedAt := 1 }

/-- Test fixture: an already-synced entry of `campaignNote`. -/
def entryWorld : Entry :=
  { id := "e2", campaignId := "c1", data := [("f1", Value.vStr "world")],
    synced := true, createdAt := 2, updatedAt := 2 }

/-- Concrete instantiation of `handleSync_appends_exactly_unsynced`: with one
synced and one unsynced entry, only the unsynced entry is appended and
marked. -/
theorem handleSync_appends_exactly_unsynced_witness :
    ([entryHello, entryWorld].filter (fun e => !e.synced) ≠ [])
    ∧ handleSyncAppendPhase (fun _ => "iso") campaignNote [entryHello, entryWorld] =
      { appended := some [[Value.vStr "e1", Value.vStr "iso", Value.vStr "",
                           Value.vStr "", Value.vStr "", Value.vStr "hello"]],
        marked := some ["e1"] } := by
  constructor
  · decide
  · have h :=
      (handleSync_appends_exactly_unsynced (fun _ => "iso") campaignNote
        [entryHello, entryWorld]).2.1 (by decide)
    rw [h]
    decide

theorem setSyncedIf_campaignId (ids : List String) (e : Entry) :
    (setSyncedIf ids e).campaignId = e.campaignId := by
  unfold setSyncedIf
  split <;> rfl

theorem setSyncedIf_data (ids : List String) (e : Entry) :
    (setSyncedIf ids e).data = e.data := by
  unfold setSyncedIf
  split <;> rfl

theorem setSyncedIf_createdAt (ids : List String) (e : Entry) :
    (setSyncedIf ids e).createdAt = e.createdAt := by
  unfold setSyncedIf
  split <;> rfl

theorem setSyncedIf_updatedAt (ids : List String) (e : Entry) :
    (setSyncedIf ids e).updatedAt = e.updatedAt := by
  unfold setSyncedIf
  split <;> rfl

/-- Test fixture: the store holding `campaignNote` with its two entries. -/
def storeNote : Store :=
  { campaigns := [campaignNote], entries := [entryHello, entryWorld] }

/-- C4: committing `markSynced` twice with the same id set yields the same
store as committing it once; after the commit every entry whose id is in the
set is synced; ids matching no entry are skipped without any effect (and the
operation is total, so no error is possible). -/
theorem markSynced_idempotent_skips_missing (s : Store) (ids : List String)
    (h : uniqueIds s.entries) :
    markSyncedTx (markSyncedTx s ids none) ids none = markSyncedTx s ids none
    ∧ (∀ e2 ∈ (markSyncedTx s ids none).entries, e2.id ∈ ids → e2.synced = true)
    ∧ ((∀ id ∈ ids, ∀ e ∈ s.entries, e.id ≠ id) → markSyncedTx s ids none = s) := by
  have hmap : markSynced s.entries ids = s.entries.map (setSyncedIf ids) :=
    markSynced_eq_map s.entries ids h
  refine ⟨?_, fun e2 he2 hid => markSynced_synced_of_mem h he2 hid, ?_⟩
  · show ({ s with entries := markSynced (markSynced s.entries ids) ids } : Store)
      = { s with entries := markSynced s.entries ids }
    have h2 : uniqueIds (markSynced s.entries ids) := by
      rw [hmap]
      exact uniqueIds_map_setSyncedIf ids h
    rw [markSynced_eq_map _ ids h2, hmap, List.map_map]
    congr 1
    exact List.map_congr_left (fun e _ => setSyncedIf_idem ids e)
  · intro hmiss
    show ({ s with entries := markSynced s.entries ids } : Store) = s
    rw [hmap]
    have : s.entries.map (setSyncedIf ids) = s.entries.map (fun e => e) :=
      List.map_congr_left (fun e he => by
        have : e.id ∉ ids := fun hin => hmiss e.id hin e he rfl
        simp [setSyncedIf, this])
    rw [this, List.map_id']

/-- Concrete instantiation of `markSynced_idempotent_skips_missing` at a
store with two entries, one requested id present and one absent. -/
theorem markSynced_idempotent_skips_missing_witness :
    uniqueIds storeNote.entries
    ∧ markSyncedTx (markSyncedTx storeNote ["e1", "e9"] none) ["e1", "e9"] none
      = markSyncedTx storeNote ["e1", "e9"] none
    ∧ markSyncedTx storeNote ["e7", "e9"] none = storeNote := by
  have h := markSynced_idempotent_skips_missing storeNote ["e1", "e9"] (by decide)
  have h2 := markSynced_idempotent_skips_missing storeNote ["e7", "e9"] (by decide)
  exact ⟨by decide, h.1, h2.2.2 (by decide)⟩

/-- C5: the `markSynced` batch is transactional: a subsequent reader sees
either the pre-state (any mid-batch fault aborts the IndexedDB transaction,
which rolls back every already-applied flip) or the committed state in which
every entry whose id is in the batch is synced; no partially applied state
is observable. -/
theorem markSynced_transactional (s : Store) (ids : List String) (fault : Option Nat)
    (h : uniqueIds s.entries) :
    (markSyncedTx s ids fault = s ∨
       markSyncedTx s ids fault = { s with entries := markSynced s.entries ids })
    ∧ (fault = none →
        ∀ e2 ∈ (markSyncedTx s ids fault).entries, e2.id ∈ ids → e2.synced = true)
    ∧ (fault ≠ none → markSyncedTx s ids fault = s) := by
  cases fault with
  | none =>
    exact ⟨Or.inr rfl, fun _ e2 he2 hid => markSynced_synced_of_mem h he2 hid,
      fun hc => absurd rfl hc⟩
  | some k =>
    refine ⟨Or.inl rfl, ?_, fun _ => rfl⟩
    intro hc
    exact absurd hc (by simp)

/-- Concrete instantiation of `markSynced_transactional`: committed run marks
the requested existing entry; faulted run leaves the store untouched. -/
theorem markSynced_transactional_witness :
    uniqueIds storeNote.entries
    ∧ (markSyncedTx storeNote ["e1"] none).entries.map Entry.synced = [true, true]
    ∧ markSyncedTx storeNote ["e1"] (some 0) = storeNote := by
  have h := markSynced_transactional storeNote ["e1"] (some 0) (by decide)
  exact ⟨by decide, by decide, h.2.2 (by simp)⟩

/-- C10: `markSynced` only ever changes the `synced` field of the entries
whose ids are listed: campaigns are untouched, the entry list keeps its
length, every entry keeps its `id`, `campaignId`, `data`, `createdAt` and
`updatedAt` at its position, and an entry whose id is not listed is left
entirely unchanged at its position. -/
theorem markSynced_frame (s : Store) (ids : List String) (h : uniqueIds s.entries) :
    (markSyncedTx s ids none).campaigns = s.campaigns
    ∧ (markSyncedTx s ids none).entries.length = s.entries.length
    ∧ (∀ i : Nat,
        (markSyncedTx s ids none).entries[i]?.map Entry.id = s.entries[i]?.map Entry.id
        ∧ (markSyncedTx s ids none).entries[i]?.map Entry.campaignId
            = s.entries[i]?.map Entry.campaignId
        ∧ (markSyncedTx s ids none).entries[i]?.map Entry.data = s.entries[i]?.map Entry.data
        ∧ (markSyncedTx s ids none).entries[i]?.map Entry.createdAt
            = s.entries[i]?.map Entry.createdAt
        ∧ (markSyncedTx s ids none).entries[i]?.map Entry.updatedAt
            = s.entries[i]?.map Entry.updatedAt)
    ∧ (∀ i : Nat, ∀ e : Entry, s.entries[i]? = some e → e.id ∉ ids →
        (markSyncedTx s ids none).entries[i]? = some e) := by
  have hmap : (markSyncedTx s ids none).entries = s.entries.map (setSyncedIf ids) :=
    markSynced_eq_map s.entries ids h
  refine ⟨rfl, by rw [hmap]; exact List.length_map _ _, ?_, ?_⟩
  · intro i
    cases hx : s.entries[i]? with
    | none =>
      rw [hmap, List.getElem?_map, hx]
      exact ⟨rfl, rfl, rfl, rfl, rfl⟩
    | some e =>
      rw [hmap, List.getElem?_map, hx]
      exact ⟨by simp [setSyncedIf_id], by simp [setSyncedIf_campaignId],
        by simp [setSyncedIf_data], by simp [setSyncedIf_createdAt],
        by simp [setSyncedIf_updatedAt]⟩
  · intro i e hx hnot
    rw [hmap, List.getElem?_map, hx]
    simp [setSyncedIf, hnot]

/-- Concrete instantiation of `markSynced_frame`: marking `e1` in the fixture
store changes nothing but that entry's `synced` flag. -/
theorem markSynced_frame_witness :
    uniqueIds storeNote.entries
    ∧ (markSyncedTx storeNote ["e1"] none).campaigns = storeNote.campaigns
    ∧ (markSyncedTx storeNote ["e1"] none).entries.map Entry.data
      = storeNote.entries.map Entry.data
    ∧ (markSyncedTx storeNote ["e1"] none).entries[1]? = some entryWorld := by
  have h := markSynced_frame storeNote ["e1"] (by decide)
  refine ⟨by decide, h.1, by decide, ?_⟩
  exact h.2.2.2 1 entryWorld (by decide) (by decide)

/-- Refutation of C3 as stated: `handleSaveEntry` builds the saved entry with
`synced: false` unconditionally, so editing the already-synced entry
`entryWorld` (id `e2`) and saving replaces it in the store with a record
whose `synced` flag is back to `false` — a normal edit/save operation resets
the flag from `true` to `false`. -/
theorem synced_monotonic_counterexample :
    entryWorld.synced = true
    ∧ handleSaveEntry campaignNote [entryHello, entryWorld]
        [("f1", Value.vStr "world v2")] (some "e2") "fresh-uuid" 9 =
      some { id := "e2", campaignId := "c1", data := [("f1", Value.vStr "world v2")],
             synced := false, createdAt := 2, updatedAt := 9 }
    ∧ (saveEntry storeNote
        { id := "e2", campaignId := "c1", data := [("f1", Value.vStr "world v2")],
          synced := false, createdAt := 2, updatedAt := 9 }).entries.map Entry.synced
      = [false, false] := by
  refine ⟨rfl, by decide, by decide⟩

/-- C3 (amended): the `synced` flag is monotonic under the sync-engine
operations — `markSynced` only ever sets it to `true` and never resets a
synced entry, whether the batch commits or aborts — and entry creation
starts the flag at `false`; entry edit/save, however, rebuilds the record
with `synced = false`, so monotonicity does not extend to edits. -/
theorem synced_monotonic_amended (s : Store) (ids : List String) (fault : Option Nat)
    (h : uniqueIds s.entries) :
    (∀ e ∈ s.entries, e.synced = true →
       ∀ e2 ∈ (markSyncedTx s ids fault).entries, e2.id = e.id → e2.synced = true)
    ∧ (∀ (campaign : Campaign) (entries : List Entry)
         (formData : List (String × Value)) (editingEntryId : Option String)
         (freshId : String) (now : Nat) (r : Entry),
         handleSaveEntry campaign entries formData editingEntryId freshId now = some r →
         r.synced = false) := by
  constructor
  · intro e he hsync e2 he2 hid
    cases fault with
    | none =>
      have hmap : (markSyncedTx s ids none).entries = s.entries.map (setSyncedIf ids) :=
        markSynced_eq_map s.entries ids h
      rw [hmap] at he2
      rcases List.mem_map.mp he2 with ⟨e3, he3, rfl⟩
      rw [setSyncedIf_id] at hid
      have he3e : e3 = e := uniqueIds_eq_of_mem h he3 he hid
      subst he3e
      unfold setSyncedIf
      split
      · rfl
      · exact hsync
    | some k =>
      have he2s : e2 ∈ s.entries := he2
      have : e2 = e := uniqueIds_eq_of_mem h he2s he hid
      rw [this]
      exact hsync
  · intro campaign entries formData editingEntryId freshId now r hr
    unfold handleSaveEntry at hr
    split at hr
    · simp only [Option.some.injEq] at hr
      rw [← hr]
    · cases hr

/-- Concrete instantiation of `synced_monotonic_amended`: the synced entry
`e2` stays synced through a `markSynced` commit that targets `e1`, and a
fresh save of form data comes out unsynced. -/
theorem synced_monotonic_amended_witness :
    uniqueIds storeNote.entries
    ∧ entryWorld.synced = true
    ∧ (∀ e2 ∈ (markSyncedTx storeNote ["e1"] none).entries,
        e2.id = entryWorld.id → e2.synced = true)
    ∧ (handleSaveEntry campaignNote [] [("f1", Value.vStr "x")] none "id-new" 7).map
        Entry.synced = some false := by
  have h := synced_monotonic_amended storeNote ["e1"] none (by decide)
  refine ⟨by decide, rfl, ?_, ?_⟩
  · exact h.1 entryWorld (by decide) rfl
  · have h2 := h.2 campaignNote [] [("f1", Value.vStr "x")] none "id-new" 7
    cases hx : handleSaveEntry campaignNote [] [("f1", Value.vStr "x")] none "id-new" 7 with
    | none => exact absurd hx (by decide)
    | some r => simp [hx, h2 r hx]

/-- C6: for an image-typed field whose stored value is a string, the
serializer emits the payload verbatim when its length is at most 40000
characters and the fixed placeholder when the length exceeds 40000. -/
theorem image_size_guard (e : Entry) (f : FieldDefinition) (s : String)
    (hf : f.type = FieldType.image)
    (hv : dataLookup e.data f.id = some (Value.vStr s)) :
    (s.length ≤ 40000 → fieldCell e f = Value.vStr s)
    ∧ (s.length > 40000 → fieldCell e f = Value.vStr imagePlaceholder) := by
  unfold fieldCell
  rw [hv, hf]
  constructor
  · intro hle
    simp [Nat.not_lt.mpr hle]
  · intro hgt
    simp [hgt]

/-- Test fixture: an image payload of exactly 40001 characters. -/
def bigImage : String := String.mk (List.replicate 40001 'a')

/-- Test fixture: an image payload of exactly 40000 characters. -/
def maxImage : String := String.mk (List.replicate 40000 'a')

/-- Test fixture: an image field definition. -/
def imageField : FieldDefinition :=
  { id := "fimg", name := "Photo", type := FieldType.image, required := false }

theorem bigImage_length : bigImage.length = 40001 := by
  show (String.mk (List.replicate 40001 'a')).data.length = 40001
  exact List.length_replicate 40001 'a'

theorem maxImage_length : maxImage.length = 40000 := by
  show (String.mk (List.replicate 40000 'a')).data.length = 40000
  exact List.length_replicate 40000 'a'

/-- Test fixture: an entry carrying the 40001-character image payload. -/
def entryBigImage : Entry :=
  { id := "eA", campaignId := "c1", data := [("fimg", Value.vStr bigImage)],
    synced := false, createdAt := 0, updatedAt := 0 }

/-- Test fixture: an entry carrying the 40000-character image payload. -/
def entryMaxImage : Entry :=
  { id := "eB", campaignId := "c1", data := [("fimg", Value.vStr maxImage)],
    synced := false, createdAt := 0, updatedAt := 0 }

/-- Concrete instantiation of `image_size_guard` at the boundary: a
40001-character payload serializes to the placeholder and a 40000-character
payload serializes verbatim. -/
theorem image_size_guard_witness :
    dataLookup entryBigImage.data "fimg" = some (Value.vStr bigImage)
    ∧ imageField.type = FieldType.image
    ∧ fieldCell entryBigImage imageField = Value.vStr imagePlaceholder
    ∧ fieldCell entryMaxImage imageField = Value.vStr maxImage := by
  refine ⟨rfl, rfl, ?_, ?_⟩
  · exact (image_size_guard entryBigImage imageField bigImage rfl rfl).2
      (by rw [bigImage_length]; exact Nat.lt_succ_self 40000)
  · exact (image_size_guard entryMaxImage imageField maxImage rfl rfl).1
      (by rw [maxImage_length])

/-- C7: the header row is the five fixed columns followed by the field
display names in campaign field order; every data row has exactly
`5 + fields.length` cells; absent or `null` field values render as empty
cells; and the serialized output depends only on the field schema and the
entry set, so serializing the same input twice (or through any campaign
with the same field list) produces identical output. -/
theorem serializer_shape_deterministic (iso : Nat → String) (campaign : Campaign) :
    getHeaders campaign.fields =
      ["ID", "Created At", "Latitude", "Longitude", "Accuracy"]
        ++ campaign.fields.map (fun f => f.name)
    ∧ (getHeaders campaign.fields).length = 5 + campaign.fields.length
    ∧ (∀ e : Entry, (rowOf iso campaign e).length = 5 + campaign.fields.length)
    ∧ (∀ (e : Entry) (i : Nat) (f : FieldDefinition), campaign.fields[i]? = some f →
        (dataLookup e.data f.id = none ∨ dataLookup e.data f.id = some Value.vNull) →
        (rowOf iso campaign e)[5 + i]? = some (Value.vStr ""))
    ∧ (∀ campaign2 : Campaign, campaign.fields = campaign2.fields →
        getHeaders campaign2.fields = getHeaders campaign.fields
        ∧ ∀ entries : List Entry,
            syncEntriesRows iso campaign entries = syncEntriesRows iso campaign2 entries) := by
  refine ⟨rfl, ?_, ?_, ?_, ?_⟩
  · simp [getHeaders]
    omega
  · intro e
    simp [rowOf, baseData]
    omega
  · intro e i f hf hnull
    have hb : (baseData iso e).length = 5 := rfl
    rw [rowOf, List.getElem?_append_right (by rw [hb]; exact Nat.le_add_right 5 i)]
    rw [hb, Nat.add_sub_cancel_left, List.getElem?_map, hf]
    show some (fieldCell e f) = some (Value.vStr "")
    congr 1
    unfold fieldCell
    rcases hnull with hn | hn <;> rw [hn]
  · intro campaign2 hf
    refine ⟨by rw [hf], fun entries => ?_⟩
    unfold syncEntriesRows rowOf
    rw [hf]

/-- Test fixture: an entry of `campaignNote` with no data at all. -/
def entryNoData : Entry :=
  { id := "e3", campaignId := "c1", data := [], synced := false,
    createdAt := 0, updatedAt := 0 }

/-- Concrete instantiation of `serializer_shape_deterministic`: the row of an
entry with no data still has `5 + 1` cells and its field cell is empty. -/
theorem serializer_shape_deterministic_witness :
    (rowOf (fun _ => "iso") campaignNote entryNoData).length = 5 + campaignNote.fields.length
    ∧ campaignNote.fields[0]? =
        some { id := "f1", name := "Note", type := FieldType.text, required := false }
    ∧ (rowOf (fun _ => "iso") campaignNote entryNoData)[5 + 0]? = some (Value.vStr "") := by
  have h := serializer_shape_deterministic (fun _ => "iso") campaignNote
  refine ⟨h.2.2.1 entryNoData, by decide, ?_⟩
  exact h.2.2.2.1 entryNoData 0
    { id := "f1", name := "Note", type := FieldType.text, required := false }
    (by decide) (Or.inl rfl)

/-- C8 (amended): the five leading cells of a serialized row are the entry
id, the ISO string of `createdAt`, and the three reserved `__loc_*` values
each passed through JS `|| ''`: an absent key gives an empty cell, a present
truthy value is carried verbatim, but a present falsy value (the number 0,
an empty string, `false` or `null`) also gives an empty cell. -/
theorem leading_cells (iso : Nat → String) (campaign : Campaign) (e : Entry) :
    (rowOf iso campaign e).take 5 =
      [Value.vStr e.id, Value.vStr (iso e.createdAt),
       jsOrEmpty (dataLookup e.data "__loc_lat"),
       jsOrEmpty (dataLookup e.data "__loc_lng"),
       jsOrEmpty (dataLookup e.data "__loc_acc")]
    ∧ (∀ k : String, dataLookup e.data k = none →
        jsOrEmpty (dataLookup e.data k) = Value.vStr "")
    ∧ (∀ (k : String) (v : Value), dataLookup e.data k = some v → v.truthy = true →
        jsOrEmpty (dataLookup e.data k) = v)
    ∧ (∀ (k : String) (v : Value), dataLookup e.data k = some v → v.truthy = false →
        jsOrEmpty (dataLookup e.data k) = Value.vStr "") := by
  refine ⟨rfl, ?_, ?_, ?_⟩
  · intro k hk
    rw [hk]
    rfl
  · intro k v hk ht
    rw [hk]
    simp [jsOrEmpty, ht]
  · intro k v hk ht
    rw [hk]
    simp [jsOrEmpty, ht]

/-- Test fixture: an entry whose reserved `__loc_lat` key is present but
holds the JS-falsy number 0 (the equator). -/
def entryZeroLat : Entry :=
  { id := "e0", campaignId := "c1",
    data := [("__loc_lat", Value.vNum 0), ("__loc_lng", Value.vNum 15)],
    synced := false, createdAt := 0, updatedAt := 0 }

/-- Refutation of C8 as stated: in `entryZeroLat` the key `__loc_lat` is
present with value 0, yet the serialized latitude cell is the empty string
rather than that value, because the code computes `data.__loc_lat || ''`
and 0 is falsy in JS. -/
theorem leading_cells_counterexample :
    dataLookup entryZeroLat.data "__loc_lat" = some (Value.vNum 0)
    ∧ (rowOf (fun _ => "iso") campaignNote entryZeroLat)[2]? = some (Value.vStr "")
    ∧ Value.vStr "" ≠ Value.vNum 0 := by
  refine ⟨rfl, by decide, by decide⟩

/-- Concrete instantiation of `leading_cells`: the fixture entry with a
truthy longitude and a falsy latitude. -/
theorem leading_cells_witness :
    dataLookup entryZeroLat.data "__loc_lng" = some (Value.vNum 15)
    ∧ jsOrEmpty (dataLookup entryZeroLat.data "__loc_lng") = Value.vNum 15
    ∧ dataLookup entryZeroLat.data "__loc_acc" = none
    ∧ jsOrEmpty (dataLookup entryZeroLat.data "__loc_acc") = Value.vStr "" := by
  have h := leading_cells (fun _ => "iso") campaignNote entryZeroLat
  refine ⟨rfl, ?_, rfl, ?_⟩
  · exact h.2.2.1 "__loc_lng" (Value.vNum 15) rfl (by decide)
  · exact h.2.1 "__loc_acc" rfl

theorem ensureSheetStructure_cases (sheet : Sheet) (c : Campaign) :
    (ensureSheetStructure sheet c = sheet ∧
       ∃ hs, sheet.firstRow = some hs ∧ hs ≠ [])
    ∨ ensureSheetStructure sheet c = { firstRow := some (getHeaders c.fields) } := by
  cases hr : sheet.firstRow with
  | none =>
    right
    unfold ensureSheetStructure
    rw [hr]
  | some hs =>
    cases hs with
    | nil =>
      right
      unfold ensureSheetStructure
      rw [hr]
      rfl
    | cons a t =>
      left
      refine ⟨?_, a :: t, rfl, by simp⟩
      unfold ensureSheetStructure
      rw [hr]
      rfl

theorem ensureSheetStructure_absorb (sheet : Sheet) (c c2 : Campaign) :
    ensureSheetStructure (ensureSheetStructure sheet c) c2 = ensureSheetStructure sheet c := by
  rcases ensureSheetStructure_cases sheet c with ⟨heq, hs, hrow, hne⟩ | heq
  · rw [heq]
    cases hs with
    | nil => exact absurd rfl hne
    | cons a t =>
      unfold ensureSheetStructure
      rw [hrow]
      rfl
  · rw [heq]
    show ensureSheetStructure { firstRow := some (getHeaders c.fields) } c2 = _
    unfold ensureSheetStructure getHeaders
    rfl

/-- C9: once the sink's first row holds a non-empty header, re-running the
header-ensuring step any number of times, with arbitrary (possibly changed)
campaign field lists, never writes or mutates it; the header is written only
when the first row is absent or empty. -/
theorem header_never_overwritten (sheet : Sheet) (campaign : Campaign) :
    (∀ hs : List String, sheet.firstRow = some hs → hs ≠ [] →
       ensureSheetStructure sheet campaign = sheet)
    ∧ (∀ later : List Campaign,
        later.foldl ensureSheetStructure (ensureSheetStructure sheet campaign)
          = ensureSheetStructure sheet campaign)
    ∧ ((sheet.firstRow = none ∨ sheet.firstRow = some []) →
        ensureSheetStructure sheet campaign =
          { firstRow := some (getHeaders campaign.fields) }) := by
  refine ⟨?_, ?_, ?_⟩
  · intro hs hrow hne
    cases hs with
    | nil => exact absurd rfl hne
    | cons a t =>
      unfold ensureSheetStructure
      rw [hrow]
      rfl
  · intro later
    induction later with
    | nil => rfl
    | cons c2 cs ih =>
      rw [List.foldl_cons, ensureSheetStructure_absorb, ih]
  · rintro (hrow | hrow)
    · unfold ensureSheetStructure
      rw [hrow]
    · unfold ensureSheetStructure
      rw [hrow]
      rfl

/-- Concrete instantiation of `header_never_overwritten`: a sheet whose first
row is the single cell `Custom` survives any number of re-runs with a
campaign whose field list differs, while a blank sheet receives the header. -/
theorem header_never_overwritten_witness :
    ensureSheetStructure { firstRow := some ["Custom"] } campaignNote
      = { firstRow := some ["Custom"] }
    ∧ [campaignNote, campaignNote].foldl ensureSheetStructure
        (ensureSheetStructure { firstRow := some ["Custom"] } campaignNote)
      = ensureSheetStructure { firstRow := some ["Custom"] } campaignNote
    ∧ ensureSheetStructure { firstRow := none } campaignNote
      = { firstRow := some (getHeaders campaignNote.fields) } := by
  have h := header_never_overwritten { firstRow := some ["Custom"] } campaignNote
  have h2 := header_never_overwritten { firstRow := none } campaignNote
  exact ⟨h.1 ["Custom"] rfl (by simp), h.2.1 [campaignNote, campaignNote],
    h2.2.2 (Or.inl rfl)⟩

end DataCapture
